import Mathlib

/-!
Shallow embedding of `herald.py` (EmergentMemoryLab): a bounded grid world
with food, a single actor (Herald) with position, hunger, alive flag and a
bounded action history, plus the perception helpers and the rule-based
autonomous policy of the game controller.

Python ints are modelled as `Int`; the food set as a `Finset (Int × Int)`;
the mutable `Herald`/`World` pair as a single state record threaded
explicitly (the world is only ever mutated through the herald's `eat`, so
folding it into the herald state is faithful).  Wall-clock timestamps in
log entries are informational only and not representable; they are omitted
from the embedded `ActionEntry`.
-/

namespace HeraldSim

/-- Python's `range(a, b)` as a list of `Int` (empty when `b ≤ a`). -/
def pyRange (a b : Int) : List Int :=
  (List.range (b - a).toNat).map (fun (i : Nat) => a + (i : Int))

/-- Python `class World` from herald.py: width, height and the food-location set.
`spawn_initial_food` draws 8 random in-bounds cells; randomness is not
modelled — theorems quantify over arbitrary food sets instead. -/
structure World where
  width : Int
  height : Int
  food_locations : Finset (Int × Int)
deriving DecidableEq

/-- Source `World.has_food_at`: membership test on the food set. -/
def World.has_food_at (w : World) (x y : Int) : Bool :=
  decide ((x, y) ∈ w.food_locations)

/-- Source `World.remove_food_at`: `set.discard`, idempotent removal. -/
def World.remove_food_at (w : World) (x y : Int) : World :=
  { w with food_locations := w.food_locations.erase (x, y) }

/-- Source `World.is_valid_position`: `0 <= x < width and 0 <= y < height`. -/
def World.is_valid_position (w : World) (x y : Int) : Bool :=
  decide (0 ≤ x ∧ x < w.width ∧ 0 ≤ y ∧ y < w.height)

/-- The snapshot returned by `Herald.get_status`. -/
structure Status where
  status : String
  location : Int × Int
  hunger : Int
  hunger_desc : String
  sees_food : Bool
deriving DecidableEq

/-- One entry of `Herald.actions_taken` (the wall-clock `timestamp` field is
omitted: it is informational only and not representable). -/
structure ActionEntry where
  type : String
  description : String
  state : Status
deriving DecidableEq

/-- Python `class Herald`: position, hunger, hunger rate, alive flag and the bounded
action history, holding its world. -/
structure Herald where
  world : World
  x : Int
  y : Int
  hunger : Int
  hunger_rate : Int
  alive : Bool
  actions_taken : List ActionEntry
deriving DecidableEq

/-- Constructor `Herald.__init__(world, x=2, y=2)`: hunger 0, hunger_rate 5, alive, empty
history; the starting coordinates are stored with no bounds validation. -/
def Herald.init (world : World) (x y : Int) : Herald :=
  { world := world, x := x, y := y, hunger := 0, hunger_rate := 5,
    alive := true, actions_taken := [] }

/-- Source `Herald.get_hunger_description`: 5-bucket classification of hunger. -/
def Herald.get_hunger_description (h : Herald) : String :=
  if h.hunger < 20 then "Full"
  else if h.hunger < 40 then "Satisfied"
  else if h.hunger < 60 then "Getting hungry"
  else if h.hunger < 80 then "Very hungry"
  else "STARVING"

/-- Source `Herald.get_status`: pure projection of the current state. -/
def Herald.get_status (h : Herald) : Status :=
  { status := if h.alive then "ALIVE" else "DEAD",
    location := (h.x, h.y),
    hunger := h.hunger,
    hunger_desc := h.get_hunger_description,
    sees_food := h.world.has_food_at h.x h.y }

/-- Source `Herald.log_action`: append an entry (with a status snapshot taken after
the mutation), then drop the oldest entry when the history exceeds 20. -/
def Herald.log_action (h : Herald) (action_type description : String) : Herald :=
  let entry : ActionEntry :=
    { type := action_type, description := description, state := h.get_status }
  let hist := h.actions_taken ++ [entry]
  { h with actions_taken := if hist.length > 20 then hist.drop 1 else hist }

/-- Source `Herald.tick`: when alive, hunger increases by `hunger_rate`; when the
increased hunger reaches 100 it clamps to 100, `alive` becomes false, and a
DIED entry is logged (with the snapshot taken after both assignments, as in
the source).  When not alive, nothing happens. -/
def Herald.tick (h : Herald) : Herald :=
  if h.alive then
    if h.hunger + h.hunger_rate ≥ 100 then
      ({ h with hunger := 100, alive := false }).log_action
        "DIED" "Herald starved to death!"
    else { h with hunger := h.hunger + h.hunger_rate }
  else h

/-- The tail of `Herald.move` shared by the four direction branches: `h` is
the pre-call state (whose `old_x, old_y` are restored on failure), `h1` the
state with the candidate position written in.  When the candidate is out of
bounds the position is reverted and the call fails; otherwise a MOVE entry
is logged. -/
def moveStep (h : Herald) (direction : String) (h1 : Herald) : Herald × Bool × String :=
  if ¬ h1.world.is_valid_position h1.x h1.y then
    ({ h1 with x := h.x, y := h.y }, false, "Can't move there - out of bounds")
  else
    (h1.log_action "MOVE"
      ("Moved " ++ direction ++ " to (" ++ toString h1.x ++ ", " ++ toString h1.y ++ ")"),
     true, "Moved " ++ direction)

/-- Source `Herald.move`: apply the unit offset for the direction token (north:
`y - 1`, south: `y + 1`, east: `x + 1`, west: `x - 1`), then bounds-check
and log via `moveStep`; an unrecognized token fails immediately with no
state change. -/
def Herald.move (h : Herald) (direction : String) : Herald × Bool × String :=
  if direction = "north" then moveStep h direction { h with y := h.y - 1 }
  else if direction = "south" then moveStep h direction { h with y := h.y + 1 }
  else if direction = "east" then moveStep h direction { h with x := h.x + 1 }
  else if direction = "west" then moveStep h direction { h with x := h.x - 1 }
  else (h, false, "Invalid direction")

/-- Source `Herald.eat`: when the world has food at the current cell, remove it,
reduce hunger by 50 floored at 0, and log an EAT entry; otherwise fail with
no state change. -/
def Herald.eat (h : Herald) : Herald × Bool × String :=
  if h.world.has_food_at h.x h.y then
    (({ h with world := h.world.remove_food_at h.x h.y,
                hunger := max 0 (h.hunger - 50) }).log_action "EAT"
      ("Ate food at (" ++ toString h.x ++ ", " ++ toString h.y ++ "). Hunger now: "
        ++ toString (max 0 (h.hunger - 50))),
     true, "Ate food! Yum!")
  else
    (h, false, "No food here to eat")

/-- The `wait` command of `Game.process_command`: log a WAIT entry only. -/
def Herald.wait (h : Herald) : Herald :=
  h.log_action "WAIT" "Herald waited"

/-- Loop body of `Herald.look_around`: skip out-of-bounds cells, skip cells
without food, otherwise keep the cell when its Manhattan distance beats the
best so far (`none` plays the role of `float('inf')`). -/
def lookStep (h : Herald) (acc : Option ((Int × Int) × Int)) (d : Int × Int) :
    Option ((Int × Int) × Int) :=
  let check_x := h.x + d.1
  let check_y := h.y + d.2
  if ¬ h.world.is_valid_position check_x check_y then acc
  else if h.world.has_food_at check_x check_y then
    let distance := |d.1| + |d.2|
    match acc with
    | none => some ((check_x, check_y), distance)
    | some pd => if distance < pd.2 then some ((check_x, check_y), distance) else acc
  else acc

/-- The offsets scanned by `look_around`: `dx` ascending over
`range(-vision_range, vision_range + 1)`, `dy` ascending within each `dx`. -/
def scanOffsets (vision_range : Int) : List (Int × Int) :=
  (pyRange (-vision_range) (vision_range + 1)).flatMap
    (fun dx => (pyRange (-vision_range) (vision_range + 1)).map (fun dy => (dx, dy)))

/-- Source `Herald.look_around(vision_range=4)`: fold the loop body over the scan
offsets, returning the coordinate of the nearest food found (if any). -/
def Herald.look_around (h : Herald) (vision_range : Int) : Option (Int × Int) :=
  ((scanOffsets vision_range).foldl (lookStep h) none).map Prod.fst

/-- Source `Herald.move_toward`: one greedy step toward the target, with the
Python locals `dx = target_x - self.x` and `dy = target_y - self.y` written
inline.  The Python function implicitly returns `None` on the (unreachable)
final fall-through; the result is therefore an `Option`. -/
def Herald.move_toward (h : Herald) (target_x target_y : Int) :
    Herald × Option (Bool × String) :=
  if target_x - h.x = 0 ∧ target_y - h.y = 0 then
    (h, some (false, "Already here"))
  else if |target_x - h.x| > |target_y - h.y| then
    if target_x - h.x > 0 then ((h.move "east").1, some (h.move "east").2)
    else ((h.move "west").1, some (h.move "west").2)
  else if |target_y - h.y| > |target_x - h.x| then
    if target_y - h.y > 0 then ((h.move "south").1, some (h.move "south").2)
    else ((h.move "north").1, some (h.move "north").2)
  else
    if target_x - h.x ≠ 0 then
      if target_x - h.x > 0 then ((h.move "east").1, some (h.move "east").2)
      else ((h.move "west").1, some (h.move "west").2)
    else if target_y - h.y ≠ 0 then
      if target_y - h.y > 0 then ((h.move "south").1, some (h.move "south").2)
      else ((h.move "north").1, some (h.move "north").2)
    else (h, none)

/-- The action chosen by `Game.herald_auto_decide`, for stating theorems. -/
inductive DecideAction where
  | eatHere
  | towardFood (x y : Int)
  | randomMove (d : String)
  | rest
deriving DecidableEq

/-- Source `Game.herald_auto_decide`: the rule-based policy.  Its two uses of the
global random generator — `random.choice` of a direction in rules 2 and 3
and the `random.random() < 0.7` test in rule 3 — are passed in explicitly as
`rdir2`, `rdir3` and `rexplore`. -/
def herald_auto_decide (h : Herald) (rdir2 rdir3 : String) (rexplore : Bool) :
    Herald × DecideAction :=
  let status := h.get_status
  if status.sees_food ∧ status.hunger > 30 then
    ((h.eat).1, DecideAction.eatHere)
  else if status.hunger > 40 then
    match h.look_around 2 with
    | some (food_x, food_y) =>
        ((h.move_toward food_x food_y).1, DecideAction.towardFood food_x food_y)
    | none => ((h.move rdir2).1, DecideAction.randomMove rdir2)
  else if rexplore then
    ((h.move rdir3).1, DecideAction.randomMove rdir3)
  else
    (h.log_action "WAIT" "Herald rested", DecideAction.rest)

/-- The four state-mutating operations a session can dispatch to the actor. -/
inductive Op where
  | move (direction : String)
  | eat
  | tick
  | wait
deriving DecidableEq

/-- Apply one operation to the actor state (results discarded, as the game
loop does for state purposes). -/
def applyOp (h : Herald) (op : Op) : Herald :=
  match op with
  | Op.move d => (h.move d).1
  | Op.eat => (h.eat).1
  | Op.tick => h.tick
  | Op.wait => h.wait

/-- Run a sequence of operations from a starting state. -/
def runOps (h : Herald) (ops : List Op) : Herald :=
  ops.foldl applyOp h

/-- Holds when `new` is `old` with one record of the given kind appended under
`log_action`'s 20-entry cap (the oldest entry is dropped when the cap is
exceeded). -/
def appendedRecord (old new : List ActionEntry) (kind : String) : Prop :=
  ∃ e : ActionEntry, e.type = kind ∧
    new = (if (old ++ [e]).length > 20 then (old ++ [e]).drop 1 else old ++ [e])

/-! ### Basic projection lemmas -/

@[simp] lemma log_action_x (h : Herald) (k d : String) : (h.log_action k d).x = h.x := rfl

@[simp] lemma log_action_y (h : Herald) (k d : String) : (h.log_action k d).y = h.y := rfl

@[simp] lemma log_action_hunger (h : Herald) (k d : String) :
    (h.log_action k d).hunger = h.hunger := rfl

@[simp] lemma log_action_alive (h : Herald) (k d : String) :
    (h.log_action k d).alive = h.alive := rfl

@[simp] lemma log_action_world (h : Herald) (k d : String) :
    (h.log_action k d).world = h.world := rfl

@[simp] lemma log_action_hunger_rate (h : Herald) (k d : String) :
    (h.log_action k d).hunger_rate = h.hunger_rate := rfl

lemma log_action_appends (h : Herald) (k d : String) :
    appendedRecord h.actions_taken (h.log_action k d).actions_taken k :=
  ⟨{ type := k, description := d, state := h.get_status }, rfl, rfl⟩

@[simp] lemma remove_food_at_width (w : World) (a b : Int) :
    (w.remove_food_at a b).width = w.width := rfl

@[simp] lemma remove_food_at_height (w : World) (a b : Int) :
    (w.remove_food_at a b).height = w.height := rfl

@[simp] lemma remove_food_at_is_valid (w : World) (a b x y : Int) :
    (w.remove_food_at a b).is_valid_position x y = w.is_valid_position x y := rfl

@[simp] lemma get_status_sees_food (h : Herald) :
    h.get_status.sees_food = h.world.has_food_at h.x h.y := rfl

@[simp] lemma get_status_hunger (h : Herald) : h.get_status.hunger = h.hunger := rfl

lemma moveStep_of_invalid (h h1 : Herald) (dir : String)
    (hv : h1.world.is_valid_position h1.x h1.y = false) :
    moveStep h dir h1 =
      ({ h1 with x := h.x, y := h.y }, false, "Can't move there - out of bounds") := by
  unfold moveStep
  rw [if_pos]
  simp [hv]

lemma moveStep_of_valid (h h1 : Herald) (dir : String)
    (hv : h1.world.is_valid_position h1.x h1.y = true) :
    moveStep h dir h1 =
      (h1.log_action "MOVE"
        ("Moved " ++ dir ++ " to (" ++ toString h1.x ++ ", " ++ toString h1.y ++ ")"),
       true, "Moved " ++ dir) := by
  unfold moveStep
  rw [if_neg]
  simp [hv]

@[simp] lemma move_world (h : Herald) (d : String) : (h.move d).1.world = h.world := by
  unfold Herald.move moveStep
  split_ifs <;> rfl

@[simp] lemma move_hunger (h : Herald) (d : String) : (h.move d).1.hunger = h.hunger := by
  unfold Herald.move moveStep
  split_ifs <;> rfl

@[simp] lemma move_alive (h : Herald) (d : String) : (h.move d).1.alive = h.alive := by
  unfold Herald.move moveStep
  split_ifs <;> rfl

@[simp] lemma move_hunger_rate (h : Herald) (d : String) :
    (h.move d).1.hunger_rate = h.hunger_rate := by
  unfold Herald.move moveStep
  split_ifs <;> rfl

@[simp] lemma eat_world_food (h : Herald) (p q : Int) (hf : h.world.has_food_at p q = false) :
    (h.eat).1.world.has_food_at p q = false := by
  unfold Herald.eat
  split_ifs with hfd
  · simp only [log_action_world]
    simp only [World.has_food_at, World.remove_food_at, Finset.mem_erase,
      decide_eq_false_iff_not] at hf ⊢
    exact fun hc => hf hc.2
  · exact hf

@[simp] lemma eat_x (h : Herald) : (h.eat).1.x = h.x := by
  unfold Herald.eat; split_ifs <;> rfl

@[simp] lemma eat_y (h : Herald) : (h.eat).1.y = h.y := by
  unfold Herald.eat; split_ifs <;> rfl

@[simp] lemma eat_alive (h : Herald) : (h.eat).1.alive = h.alive := by
  unfold Herald.eat; split_ifs <;> rfl

@[simp] lemma eat_hunger_rate (h : Herald) : (h.eat).1.hunger_rate = h.hunger_rate := by
  unfold Herald.eat; split_ifs <;> rfl

@[simp] lemma eat_is_valid (h : Herald) (x y : Int) :
    (h.eat).1.world.is_valid_position x y = h.world.is_valid_position x y := by
  unfold Herald.eat; split_ifs <;> rfl

@[simp] lemma tick_x (h : Herald) : (h.tick).x = h.x := by
  unfold Herald.tick; split_ifs <;> rfl

@[simp] lemma tick_y (h : Herald) : (h.tick).y = h.y := by
  unfold Herald.tick; split_ifs <;> rfl

@[simp] lemma tick_world (h : Herald) : (h.tick).world = h.world := by
  unfold Herald.tick; split_ifs <;> rfl

@[simp] lemma tick_hunger_rate (h : Herald) : (h.tick).hunger_rate = h.hunger_rate := by
  unfold Herald.tick; split_ifs <;> rfl

lemma tick_of_dead (h : Herald) (ha : h.alive = false) : h.tick = h := by
  unfold Herald.tick
  rw [if_neg]
  simp [ha]

@[simp] lemma wait_x (h : Herald) : (h.wait).x = h.x := rfl

@[simp] lemma wait_y (h : Herald) : (h.wait).y = h.y := rfl

@[simp] lemma wait_hunger (h : Herald) : (h.wait).hunger = h.hunger := rfl

@[simp] lemma wait_alive (h : Herald) : (h.wait).alive = h.alive := rfl

@[simp] lemma wait_world (h : Herald) : (h.wait).world = h.world := rfl

@[simp] lemma wait_hunger_rate (h : Herald) : (h.wait).hunger_rate = h.hunger_rate := rfl

lemma move_north_eq (h : Herald) :
    h.move "north" = moveStep h "north" { h with y := h.y - 1 } := rfl

lemma move_south_eq (h : Herald) :
    h.move "south" = moveStep h "south" { h with y := h.y + 1 } := rfl

lemma move_east_eq (h : Herald) :
    h.move "east" = moveStep h "east" { h with x := h.x + 1 } := rfl

lemma move_west_eq (h : Herald) :
    h.move "west" = moveStep h "west" { h with x := h.x - 1 } := rfl

/-! ### Claim theorems -/

/-- C10: actor construction performs no bounds validation — for every grid
and every integer pair (x, y), including out-of-bounds pairs, the
constructor yields an actor with `alive = true`, hunger 0, empty history,
and position exactly (x, y). -/
theorem c10_init_no_validation : ∀ (w : World) (x y : Int),
    (Herald.init w x y).alive = true ∧ (Herald.init w x y).hunger = 0 ∧
    (Herald.init w x y).actions_taken = [] ∧
    (Herald.init w x y).x = x ∧ (Herald.init w x y).y = y :=
  fun _ _ _ => ⟨rfl, rfl, rfl, rfl, rfl⟩

/-- C5: `move` fails with the out-of-bounds reason leaving the whole state
unchanged when the unit-offset candidate is out of grid bounds; fails with
the invalid-direction reason and changes nothing when the direction is not
one of north/south/east/west; on success it updates the position by exactly
the unit offset (north `y-1`, south `y+1`, east `x+1`, west `x-1`) and
appends a MOVE record; in particular an actor at (0,0) moving north fails
and stays at (0,0). -/
theorem c5_move_error_handling (h : Herald) (d : String) :
    (d ≠ "north" → d ≠ "south" → d ≠ "east" → d ≠ "west" →
      h.move d = (h, false, "Invalid direction")) ∧
    (h.world.is_valid_position h.x (h.y - 1) = false →
      h.move "north" = (h, false, "Can't move there - out of bounds")) ∧
    (h.world.is_valid_position h.x (h.y + 1) = false →
      h.move "south" = (h, false, "Can't move there - out of bounds")) ∧
    (h.world.is_valid_position (h.x + 1) h.y = false →
      h.move "east" = (h, false, "Can't move there - out of bounds")) ∧
    (h.world.is_valid_position (h.x - 1) h.y = false →
      h.move "west" = (h, false, "Can't move there - out of bounds")) ∧
    (h.world.is_valid_position h.x (h.y - 1) = true →
      (h.move "north").1.x = h.x ∧ (h.move "north").1.y = h.y - 1 ∧
      (h.move "north").2 = (true, "Moved north") ∧
      appendedRecord h.actions_taken (h.move "north").1.actions_taken "MOVE") ∧
    (h.world.is_valid_position h.x (h.y + 1) = true →
      (h.move "south").1.x = h.x ∧ (h.move "south").1.y = h.y + 1 ∧
      (h.move "south").2 = (true, "Moved south") ∧
      appendedRecord h.actions_taken (h.move "south").1.actions_taken "MOVE") ∧
    (h.world.is_valid_position (h.x + 1) h.y = true →
      (h.move "east").1.x = h.x + 1 ∧ (h.move "east").1.y = h.y ∧
      (h.move "east").2 = (true, "Moved east") ∧
      appendedRecord h.actions_taken (h.move "east").1.actions_taken "MOVE") ∧
    (h.world.is_valid_position (h.x - 1) h.y = true →
      (h.move "west").1.x = h.x - 1 ∧ (h.move "west").1.y = h.y ∧
      (h.move "west").2 = (true, "Moved west") ∧
      appendedRecord h.actions_taken (h.move "west").1.actions_taken "MOVE") ∧
    (h.x = 0 → h.y = 0 →
      h.move "north" = (h, false, "Can't move there - out of bounds")) := by
  refine ⟨?_, ?_, ?_, ?_, ?_, ?_, ?_, ?_, ?_, ?_⟩
  · intro hn hs he hw
    unfold Herald.move
    rw [if_neg hn, if_neg hs, if_neg he, if_neg hw]
  · intro hv
    rw [move_north_eq, moveStep_of_invalid h _ _ hv]
  · intro hv
    rw [move_south_eq, moveStep_of_invalid h _ _ hv]
  · intro hv
    rw [move_east_eq, moveStep_of_invalid h _ _ hv]
  · intro hv
    rw [move_west_eq, moveStep_of_invalid h _ _ hv]
  · intro hv
    rw [move_north_eq, moveStep_of_valid h _ _ hv]
    exact ⟨rfl, rfl, rfl, log_action_appends _ _ _⟩
  · intro hv
    rw [move_south_eq, moveStep_of_valid h _ _ hv]
    exact ⟨rfl, rfl, rfl, log_action_appends _ _ _⟩
  · intro hv
    rw [move_east_eq, moveStep_of_valid h _ _ hv]
    exact ⟨rfl, rfl, rfl, log_action_appends _ _ _⟩
  · intro hv
    rw [move_west_eq, moveStep_of_valid h _ _ hv]
    exact ⟨rfl, rfl, rfl, log_action_appends _ _ _⟩
  · intro hx hy
    have hv : h.world.is_valid_position h.x (h.y - 1) = false := by
      rw [hy]
      simp only [World.is_valid_position, decide_eq_false_iff_not]
      omega
    rw [move_north_eq, moveStep_of_invalid h _ _ hv]

/-- Witness for C5: Scenario C — an actor at (0,0) moving north fails with
the out-of-bounds message and stays at (0,0); an unknown token is rejected. -/
theorem c5_move_error_handling_witness :
    (Herald.init ⟨5, 5, ∅⟩ 0 0).move "north" =
        (Herald.init ⟨5, 5, ∅⟩ 0 0, false, "Can't move there - out of bounds") ∧
    (Herald.init ⟨5, 5, ∅⟩ 0 0).move "up" =
        (Herald.init ⟨5, 5, ∅⟩ 0 0, false, "Invalid direction") :=
  ⟨(c5_move_error_handling (Herald.init ⟨5, 5, ∅⟩ 0 0) "up").2.2.2.2.2.2.2.2.2 rfl rfl,
   (c5_move_error_handling (Herald.init ⟨5, 5, ∅⟩ 0 0) "up").1
     (by decide) (by decide) (by decide) (by decide)⟩

lemma applyOp_no_food (h : Herald) (op : Op) (p q : Int)
    (hf : h.world.has_food_at p q = false) :
    (applyOp h op).world.has_food_at p q = false := by
  cases op with
  | move d => rw [applyOp, move_world]; exact hf
  | eat => exact eat_world_food h p q hf
  | tick => rw [applyOp, tick_world]; exact hf
  | wait => exact hf

/-- No operation ever adds food: a cell without food keeps no food under any
operation sequence (eat only removes). -/
lemma no_food_stays (p q : Int) : ∀ (ops : List Op) (h : Herald),
    h.world.has_food_at p q = false → (runOps h ops).world.has_food_at p q = false := by
  intro ops
  induction ops with
  | nil => exact fun h hf => hf
  | cons op ops ih =>
    intro h hf
    exact ih (applyOp h op) (applyOp_no_food h op p q hf)

/-- C6: `eat` succeeds iff the grid has food at the actor's current cell; on
success the food is removed (and stays removed under any further operation
sequence) and hunger decreases by 50 floored at 0 with an EAT record
appended; on failure it reports no food and changes no state, so two
consecutive failing calls return identical results. -/
theorem c6_eat_semantics (h : Herald) :
    ((h.eat).2.1 = true ↔ h.world.has_food_at h.x h.y = true) ∧
    (h.world.has_food_at h.x h.y = true →
      (h.eat).1.world.has_food_at h.x h.y = false ∧
      (h.eat).1.hunger = max 0 (h.hunger - 50) ∧
      (h.eat).1.x = h.x ∧ (h.eat).1.y = h.y ∧
      (h.eat).2 = (true, "Ate food! Yum!") ∧
      appendedRecord h.actions_taken (h.eat).1.actions_taken "EAT" ∧
      (∀ ops : List Op, (runOps (h.eat).1 ops).world.has_food_at h.x h.y = false)) ∧
    (h.world.has_food_at h.x h.y = false →
      h.eat = (h, false, "No food here to eat") ∧ (h.eat).1.eat = h.eat) := by
  refine ⟨?_, ?_, ?_⟩
  · unfold Herald.eat
    split_ifs with hf
    · simp [hf]
    · simp [hf]
  · intro hf
    have he : h.eat =
        (({ h with world := h.world.remove_food_at h.x h.y,
                    hunger := max 0 (h.hunger - 50) }).log_action "EAT"
          ("Ate food at (" ++ toString h.x ++ ", " ++ toString h.y ++ "). Hunger now: "
            ++ toString (max 0 (h.hunger - 50))),
         true, "Ate food! Yum!") := by
      unfold Herald.eat
      rw [if_pos hf]
    have hgone : (h.eat).1.world.has_food_at h.x h.y = false := by
      rw [he, log_action_world]
      simp [World.has_food_at, World.remove_food_at]
    refine ⟨hgone, ?_, ?_, ?_, ?_, ?_, ?_⟩
    · rw [he, log_action_hunger]
    · rw [he, log_action_x]
    · rw [he, log_action_y]
    · rw [he]
    · rw [he]
      exact log_action_appends _ _ _
    · intro ops
      exact no_food_stays h.x h.y ops (h.eat).1 hgone
  · intro hf
    have he : h.eat = (h, false, "No food here to eat") := by
      unfold Herald.eat
      rw [if_neg]
      simp [hf]
    exact ⟨he, by rw [he]; exact he⟩

/-- Witness for C6: Scenario B — food at (5,5), actor at (5,5) with hunger
0: `eat` succeeds, hunger stays floored at 0, and the food is gone; a second
eat at the now-empty cell fails with no state change. -/
theorem c6_eat_semantics_witness :
    ((Herald.init ⟨10, 10, {(5, 5)}⟩ 5 5).eat).2.1 = true ∧
    ((Herald.init ⟨10, 10, {(5, 5)}⟩ 5 5).eat).1.hunger = 0 ∧
    ((Herald.init ⟨10, 10, {(5, 5)}⟩ 5 5).eat).1.world.has_food_at 5 5 = false := by
  have hmain := c6_eat_semantics (Herald.init ⟨10, 10, {(5, 5)}⟩ 5 5)
  have hfood : (Herald.init ⟨10, 10, {(5, 5)}⟩ 5 5).world.has_food_at 5 5 = true := by decide
  have hsucc := hmain.2.1 hfood
  exact ⟨hmain.1.mpr hfood, by rw [hsucc.2.1]; decide, hsucc.1⟩

/-- C2 counterexample: an actor that starved to death by 20 ticks (at (1,1)
in a 3×3 grid) still moves when told to — `move "north"` succeeds and
changes its position to (1,0), and with food under it a dead actor's `eat`
also succeeds, removes the food and lowers hunger.  So death does not make
`move`/`eat` no-ops. -/
theorem c2_counterexample :
    (runOps (Herald.init ⟨3, 3, ∅⟩ 1 1) (List.replicate 20 Op.tick)).alive = false ∧
    (runOps (Herald.init ⟨3, 3, ∅⟩ 1 1) (List.replicate 20 Op.tick)).y = 1 ∧
    ((runOps (Herald.init ⟨3, 3, ∅⟩ 1 1) (List.replicate 20 Op.tick)).move "north").2.1 = true ∧
    ((runOps (Herald.init ⟨3, 3, ∅⟩ 1 1) (List.replicate 20 Op.tick)).move "north").1.y = 0 ∧
    (runOps (Herald.init ⟨3, 3, {(1, 1)}⟩ 1 1) (List.replicate 20 Op.tick)).alive = false ∧
    ((runOps (Herald.init ⟨3, 3, {(1, 1)}⟩ 1 1) (List.replicate 20 Op.tick)).eat).2.1 = true ∧
    ((runOps (Herald.init ⟨3, 3, {(1, 1)}⟩ 1 1) (List.replicate 20 Op.tick)).eat).1.hunger = 50 ∧
    ((runOps (Herald.init ⟨3, 3, {(1, 1)}⟩ 1 1) (List.replicate 20 Op.tick)).eat).1.world.has_food_at 1 1
      = false := by
  refine ⟨by decide, by decide, by decide, by decide, by decide, by decide, by decide, by decide⟩

/-- C2 amended: once `alive` is false, `tick()` is a no-op, and `wait` never
changes position, hunger or food; but `move` and `eat` do not consult
`alive` — a dead actor's `move` still changes position (subject to bounds)
and its `eat` still removes food and lowers hunger.  Death permanence of
position/hunger/food holds only because the session loop stops dispatching
commands to a dead actor. -/
theorem c2_dead_actor_amended (h : Herald) :
    (h.alive = false → h.tick = h) ∧
    ((h.wait).x = h.x ∧ (h.wait).y = h.y ∧ (h.wait).hunger = h.hunger ∧
      (h.wait).world = h.world) ∧
    (h.alive = false → h.world.is_valid_position h.x (h.y - 1) = true →
      (h.move "north").2.1 = true ∧ (h.move "north").1.y = h.y - 1) ∧
    (h.alive = false → h.world.has_food_at h.x h.y = true →
      (h.eat).2.1 = true ∧ (h.eat).1.hunger = max 0 (h.hunger - 50) ∧
      (h.eat).1.world.has_food_at h.x h.y = false) := by
  refine ⟨tick_of_dead h, ⟨rfl, rfl, rfl, rfl⟩, ?_, ?_⟩
  · intro _ hv
    rw [move_north_eq, moveStep_of_valid h _ _ hv]
    exact ⟨rfl, rfl⟩
  · intro _ hf
    have hmain := (c6_eat_semantics h).2.1 hf
    exact ⟨(c6_eat_semantics h).1.mpr hf, hmain.2.1, hmain.1⟩

/-- Witness for C2 amended: a concretely starved actor accepts `tick` as a
no-op, and its `move "north"` still succeeds. -/
theorem c2_dead_actor_amended_witness :
    (runOps (Herald.init ⟨3, 3, ∅⟩ 1 1) (List.replicate 20 Op.tick)).alive = false ∧
    (runOps (Herald.init ⟨3, 3, ∅⟩ 1 1) (List.replicate 20 Op.tick)).tick
      = runOps (Herald.init ⟨3, 3, ∅⟩ 1 1) (List.replicate 20 Op.tick) ∧
    ((runOps (Herald.init ⟨3, 3, ∅⟩ 1 1) (List.replicate 20 Op.tick)).move "north").2.1 = true := by
  have hmain := c2_dead_actor_amended (runOps (Herald.init ⟨3, 3, ∅⟩ 1 1) (List.replicate 20 Op.tick))
  have hdead : (runOps (Herald.init ⟨3, 3, ∅⟩ 1 1) (List.replicate 20 Op.tick)).alive = false := by
    decide
  exact ⟨hdead, hmain.1 hdead, (hmain.2.2.1 hdead (by decide)).1⟩

/-- C8: when alive with `hunger_rate = 5`, `tick` increases hunger by
exactly 5; at 100 or above it clamps to 100, kills the actor and appends a
DIED record; `move`/`eat`/`wait` never change `alive`; and from hunger 0 on
a 10×10 grid, 20 ticks yield hunger 100, `alive = false` and exactly one
DIED record (Scenario A). -/
theorem c8_tick_semantics :
    (∀ h : Herald, h.alive = true → h.hunger_rate = 5 →
      (h.hunger + 5 < 100 → h.tick = { h with hunger := h.hunger + 5 }) ∧
      (h.hunger + 5 ≥ 100 →
        (h.tick).hunger = 100 ∧ (h.tick).alive = false ∧
        appendedRecord h.actions_taken (h.tick).actions_taken "DIED")) ∧
    (∀ (h : Herald) (d : String),
      (h.move d).1.alive = h.alive ∧ (h.eat).1.alive = h.alive ∧ (h.wait).alive = h.alive) ∧
    ((runOps (Herald.init ⟨10, 10, ∅⟩ 5 5) (List.replicate 20 Op.tick)).hunger = 100 ∧
     (runOps (Herald.init ⟨10, 10, ∅⟩ 5 5) (List.replicate 20 Op.tick)).alive = false ∧
     (runOps (Herald.init ⟨10, 10, ∅⟩ 5 5) (List.replicate 20 Op.tick)).actions_taken.countP
       (fun e => e.type == "DIED") = 1) := by
  refine ⟨?_, ?_, by decide, by decide, by decide⟩
  · intro h ha hr
    constructor
    · intro hlt
      unfold Herald.tick
      rw [if_pos ha, if_neg (by omega : ¬ h.hunger + h.hunger_rate ≥ 100), hr]
    · intro hge
      have ht : h.tick = ({ h with hunger := 100, alive := false }).log_action
          "DIED" "Herald starved to death!" := by
        unfold Herald.tick
        rw [if_pos ha, if_pos (by omega : h.hunger + h.hunger_rate ≥ 100)]
      rw [ht]
      exact ⟨rfl, rfl, log_action_appends _ _ _⟩
  · intro h d
    exact ⟨move_alive h d, eat_alive h, wait_alive h⟩

/-- Witness for C8: a fresh actor (alive, hunger 0, rate 5) ticks to hunger
5 and stays alive; the actor at hunger 95 dies on the next tick with hunger
clamped to 100. -/
theorem c8_tick_semantics_witness :
    (Herald.init ⟨10, 10, ∅⟩ 5 5).tick
      = { Herald.init ⟨10, 10, ∅⟩ 5 5 with hunger := 0 + 5 } ∧
    ({ Herald.init ⟨10, 10, ∅⟩ 5 5 with hunger := 95 }).tick.hunger = 100 ∧
    ({ Herald.init ⟨10, 10, ∅⟩ 5 5 with hunger := 95 }).tick.alive = false := by
  have h1 := (c8_tick_semantics.1 (Herald.init ⟨10, 10, ∅⟩ 5 5) rfl rfl).1 (by decide)
  have h2 := (c8_tick_semantics.1 ({ Herald.init ⟨10, 10, ∅⟩ 5 5 with hunger := 95 })
    rfl rfl).2 (by decide)
  exact ⟨h1, h2.1, h2.2.1⟩

/-- C9: whenever food is present at the actor's cell and hunger exceeds 30,
the autonomous policy chooses the eat action for every value of the random
inputs — rule 1 short-circuits the movement and rest rules. -/
theorem c9_rule1_short_circuit (h : Herald) (rdir2 rdir3 : String) (rexplore : Bool)
    (hfood : h.world.has_food_at h.x h.y = true) (hh : h.hunger > 30) :
    herald_auto_decide h rdir2 rdir3 rexplore = ((h.eat).1, DecideAction.eatHere) := by
  unfold herald_auto_decide
  rw [if_pos]
  show h.get_status.sees_food = true ∧ h.get_status.hunger > 30
  rw [get_status_sees_food, get_status_hunger]
  exact ⟨hfood, hh⟩

/-- Witness for C9: Scenario E — actor at (3,3), hunger 50, food at (3,3):
`decide` returns the eat action regardless of the sampled direction and the
exploration draw. -/
theorem c9_rule1_short_circuit_witness :
    ({ Herald.init ⟨10, 10, {(3, 3)}⟩ 3 3 with hunger := 50 }).world.has_food_at 3 3 = true ∧
    (50 : Int) > 30 ∧
    herald_auto_decide { Herald.init ⟨10, 10, {(3, 3)}⟩ 3 3 with hunger := 50 }
        "west" "south" true
      = (({ Herald.init ⟨10, 10, {(3, 3)}⟩ 3 3 with hunger := 50 }).eat.1,
         DecideAction.eatHere) ∧
    herald_auto_decide { Herald.init ⟨10, 10, {(3, 3)}⟩ 3 3 with hunger := 50 }
        "north" "east" false
      = (({ Herald.init ⟨10, 10, {(3, 3)}⟩ 3 3 with hunger := 50 }).eat.1,
         DecideAction.eatHere) :=
  ⟨by decide, by decide,
   c9_rule1_short_circuit _ "west" "south" true (by decide) (by decide),
   c9_rule1_short_circuit _ "north" "east" false (by decide) (by decide)⟩

/-- C7: `move_toward` fails with "Already here" when both deltas are zero;
otherwise it makes exactly one `move` call — along the axis with strictly
larger absolute delta, and on equal absolute deltas along the horizontal
axis whenever `dx ≠ 0` — inheriting `move`'s success/failure semantics. -/
theorem c7_move_toward_one_step (h : Herald) (tx ty : Int) :
    (tx - h.x = 0 → ty - h.y = 0 →
      h.move_toward tx ty = (h, some (false, "Already here"))) ∧
    (|tx - h.x| > |ty - h.y| → tx - h.x > 0 →
      h.move_toward tx ty = ((h.move "east").1, some (h.move "east").2)) ∧
    (|tx - h.x| > |ty - h.y| → tx - h.x < 0 →
      h.move_toward tx ty = ((h.move "west").1, some (h.move "west").2)) ∧
    (|ty - h.y| > |tx - h.x| → ty - h.y > 0 →
      h.move_toward tx ty = ((h.move "south").1, some (h.move "south").2)) ∧
    (|ty - h.y| > |tx - h.x| → ty - h.y < 0 →
      h.move_toward tx ty = ((h.move "north").1, some (h.move "north").2)) ∧
    (|tx - h.x| = |ty - h.y| → tx - h.x > 0 →
      h.move_toward tx ty = ((h.move "east").1, some (h.move "east").2)) ∧
    (|tx - h.x| = |ty - h.y| → tx - h.x < 0 →
      h.move_toward tx ty = ((h.move "west").1, some (h.move "west").2)) := by
  refine ⟨?_, ?_, ?_, ?_, ?_, ?_, ?_⟩
  · intro hdx hdy
    unfold Herald.move_toward
    rw [if_pos ⟨hdx, hdy⟩]
  · intro hgt hpos
    unfold Herald.move_toward
    rw [if_neg (by omega : ¬ (tx - h.x = 0 ∧ ty - h.y = 0)), if_pos hgt, if_pos hpos]
  · intro hgt hneg
    unfold Herald.move_toward
    rw [if_neg (by omega : ¬ (tx - h.x = 0 ∧ ty - h.y = 0)), if_pos hgt,
      if_neg (by omega : ¬ tx - h.x > 0)]
  · intro hgt hpos
    unfold Herald.move_toward
    rw [if_neg ?hzero, if_neg (by omega : ¬ |tx - h.x| > |ty - h.y|), if_pos hgt, if_pos hpos]
    case hzero =>
      intro hc
      rw [hc.1, hc.2] at hgt
      exact lt_irrefl _ hgt
  · intro hgt hneg
    unfold Herald.move_toward
    rw [if_neg ?hzero2, if_neg (by omega : ¬ |tx - h.x| > |ty - h.y|), if_pos hgt,
      if_neg (by omega : ¬ ty - h.y > 0)]
    case hzero2 =>
      intro hc
      rw [hc.1, hc.2] at hgt
      exact lt_irrefl _ hgt
  · intro heq hpos
    unfold Herald.move_toward
    rw [if_neg (by omega : ¬ (tx - h.x = 0 ∧ ty - h.y = 0)),
      if_neg (by rw [heq]; exact lt_irrefl _), if_neg (by rw [heq]; exact lt_irrefl _),
      if_pos (by omega : tx - h.x ≠ 0), if_pos hpos]
  · intro heq hneg
    unfold Herald.move_toward
    rw [if_neg (by omega : ¬ (tx - h.x = 0 ∧ ty - h.y = 0)),
      if_neg (by rw [heq]; exact lt_irrefl _), if_neg (by rw [heq]; exact lt_irrefl _),
      if_pos (by omega : tx - h.x ≠ 0), if_neg (by omega : ¬ tx - h.x > 0)]

/-- Witness for C7: Scenario D — actor at (3,3), target (3,1): `dy = -2`
dominates, so `move_toward` issues `move "north"` and the new position is
(3,2); at the target itself it fails with "Already here". -/
theorem c7_move_toward_one_step_witness :
    |(1 : Int) - 3| > |(3 : Int) - 3| ∧
    (Herald.init ⟨10, 10, {(3, 1)}⟩ 3 3).move_toward 3 1
      = (((Herald.init ⟨10, 10, {(3, 1)}⟩ 3 3).move "north").1,
         some ((Herald.init ⟨10, 10, {(3, 1)}⟩ 3 3).move "north").2) ∧
    ((Herald.init ⟨10, 10, {(3, 1)}⟩ 3 3).move_toward 3 1).1.y = 2 ∧
    (Herald.init ⟨10, 10, {(3, 1)}⟩ 3 1).move_toward 3 1
      = (Herald.init ⟨10, 10, {(3, 1)}⟩ 3 1, some (false, "Already here")) := by
  refine ⟨by decide, ?_, by decide, ?_⟩
  · exact (c7_move_toward_one_step (Herald.init ⟨10, 10, {(3, 1)}⟩ 3 3) 3 1).2.2.2.2.1
      (by decide) (by decide)
  · exact (c7_move_toward_one_step (Herald.init ⟨10, 10, {(3, 1)}⟩ 3 1) 3 1).1
      (by decide) (by decide)

lemma moveStep_valid (h h1 : Herald) (dir : String) (hww : h1.world = h.world)
    (hv : h.world.is_valid_position h.x h.y = true) :
    (moveStep h dir h1).1.world.is_valid_position
      (moveStep h dir h1).1.x (moveStep h dir h1).1.y = true := by
  by_cases hval : h1.world.is_valid_position h1.x h1.y = true
  · rw [moveStep_of_valid h h1 dir hval]
    simpa [hww] using hval
  · rw [moveStep_of_invalid h h1 dir (by simpa using hval)]
    show h1.world.is_valid_position h.x h.y = true
    rw [hww]
    exact hv

lemma move_valid (h : Herald) (d : String)
    (hv : h.world.is_valid_position h.x h.y = true) :
    (h.move d).1.world.is_valid_position (h.move d).1.x (h.move d).1.y = true := by
  unfold Herald.move
  split_ifs <;> first
    | exact moveStep_valid h _ d rfl hv
    | exact hv

lemma applyOp_valid (h : Herald) (op : Op)
    (hv : h.world.is_valid_position h.x h.y = true) :
    (applyOp h op).world.is_valid_position (applyOp h op).x (applyOp h op).y = true := by
  cases op with
  | move d => exact move_valid h d hv
  | eat => rw [applyOp, eat_is_valid, eat_x, eat_y]; exact hv
  | tick => rw [applyOp, tick_world, tick_x, tick_y]; exact hv
  | wait => exact hv

lemma runOps_valid : ∀ (ops : List Op) (h : Herald),
    h.world.is_valid_position h.x h.y = true →
    (runOps h ops).world.is_valid_position (runOps h ops).x (runOps h ops).y = true := by
  intro ops
  induction ops with
  | nil => exact fun h hv => hv
  | cons op ops ih => exact fun h hv => ih (applyOp h op) (applyOp_valid h op hv)

/-- C3: from an actor constructed at an in-bounds start position, every
state reachable by any sequence of move/eat/tick/wait operations has its
position within grid bounds (in particular whenever `alive` is true). -/
theorem c3_bounds_invariant (w : World) (x y : Int) (ops : List Op)
    (hstart : w.is_valid_position x y = true) :
    (runOps (Herald.init w x y) ops).alive = true →
    (runOps (Herald.init w x y) ops).world.is_valid_position
      (runOps (Herald.init w x y) ops).x (runOps (Herald.init w x y) ops).y = true :=
  fun _ => runOps_valid ops (Herald.init w x y) hstart

/-- Witness for C3: a concrete run (two moves against the wall, one eat,
one tick) from (0,0) on a 2×2 grid stays in bounds. -/
theorem c3_bounds_invariant_witness :
    (⟨2, 2, {(0, 1)}⟩ : World).is_valid_position 0 0 = true ∧
    (runOps (Herald.init ⟨2, 2, {(0, 1)}⟩ 0 0)
        [Op.move "north", Op.move "south", Op.eat, Op.tick]).alive = true ∧
    (runOps (Herald.init ⟨2, 2, {(0, 1)}⟩ 0 0)
        [Op.move "north", Op.move "south", Op.eat, Op.tick]).world.is_valid_position
      (runOps (Herald.init ⟨2, 2, {(0, 1)}⟩ 0 0)
        [Op.move "north", Op.move "south", Op.eat, Op.tick]).x
      (runOps (Herald.init ⟨2, 2, {(0, 1)}⟩ 0 0)
        [Op.move "north", Op.move "south", Op.eat, Op.tick]).y = true :=
  ⟨by decide, by decide,
   c3_bounds_invariant ⟨2, 2, {(0, 1)}⟩ 0 0
     [Op.move "north", Op.move "south", Op.eat, Op.tick] (by decide) (by decide)⟩

lemma applyOp_hunger_inv (h : Herald) (op : Op)
    (hinv : h.hunger_rate = 5 ∧ 0 ≤ h.hunger ∧ h.hunger ≤ 100) :
    (applyOp h op).hunger_rate = 5 ∧
      0 ≤ (applyOp h op).hunger ∧ (applyOp h op).hunger ≤ 100 := by
  obtain ⟨hr, h0, h100⟩ := hinv
  cases op with
  | move d => rw [applyOp, move_hunger_rate, move_hunger]; exact ⟨hr, h0, h100⟩
  | eat =>
    rw [applyOp]
    unfold Herald.eat
    split_ifs
    · refine ⟨hr, le_max_left 0 _, ?_⟩
      show max 0 (h.hunger - 50) ≤ 100
      exact max_le (by omega) (by omega)
    · exact ⟨hr, h0, h100⟩
  | tick =>
    rw [applyOp]
    unfold Herald.tick
    split_ifs with ha hge
    · exact ⟨hr, by show (0 : Int) ≤ 100; omega, by show (100 : Int) ≤ 100; omega⟩
    · rw [hr] at hge
      exact ⟨hr, by show 0 ≤ h.hunger + h.hunger_rate; omega,
        by show h.hunger + h.hunger_rate ≤ 100; omega⟩
    · exact ⟨hr, h0, h100⟩
  | wait => rw [applyOp, wait_hunger_rate, wait_hunger]; exact ⟨hr, h0, h100⟩

lemma runOps_hunger_inv : ∀ (ops : List Op) (h : Herald),
    h.hunger_rate = 5 ∧ 0 ≤ h.hunger ∧ h.hunger ≤ 100 →
    (runOps h ops).hunger_rate = 5 ∧
      0 ≤ (runOps h ops).hunger ∧ (runOps h ops).hunger ≤ 100 := by
  intro ops
  induction ops with
  | nil => exact fun h hinv => hinv
  | cons op ops ih => exact fun h hinv => ih (applyOp h op) (applyOp_hunger_inv h op hinv)

/-- C4: from a freshly constructed actor (hunger 0, rate 5), hunger stays
in [0,100] across every operation sequence (in particular across every
sequence of `tick` and `eat` calls); `tick` clamps at 100 and `eat` never
takes hunger below 0. -/
theorem c4_hunger_clamp (w : World) (x y : Int) (ops : List Op) :
    (0 ≤ (runOps (Herald.init w x y) ops).hunger ∧
      (runOps (Herald.init w x y) ops).hunger ≤ 100) ∧
    (∀ h : Herald, h.alive = true → h.hunger + h.hunger_rate ≥ 100 →
      (h.tick).hunger = 100) ∧
    (∀ h : Herald, 0 ≤ h.hunger → 0 ≤ (h.eat).1.hunger) := by
  refine ⟨?_, ?_, ?_⟩
  · exact (runOps_hunger_inv ops (Herald.init w x y)
      ⟨rfl, le_refl 0, by show (0 : Int) ≤ 100; omega⟩).2
  · intro h ha hge
    unfold Herald.tick
    rw [if_pos ha, if_pos hge]
    rfl
  · intro h h0
    unfold Herald.eat
    split_ifs
    · exact le_max_left 0 _
    · exact h0

/-- Witness for C4: a concrete run of ticks and eats from hunger 0 stays in
[0,100]; the clamp fires concretely at hunger 95 + 5, and eating at hunger
0 floors at 0. -/
theorem c4_hunger_clamp_witness :
    (0 ≤ (runOps (Herald.init ⟨2, 2, {(0, 0)}⟩ 0 0)
        [Op.tick, Op.eat, Op.tick, Op.eat]).hunger ∧
      (runOps (Herald.init ⟨2, 2, {(0, 0)}⟩ 0 0)
        [Op.tick, Op.eat, Op.tick, Op.eat]).hunger ≤ 100) ∧
    ({ Herald.init ⟨2, 2, ∅⟩ 0 0 with hunger := 95 }).tick.hunger = 100 ∧
    0 ≤ ((Herald.init ⟨2, 2, {(0, 0)}⟩ 0 0).eat).1.hunger := by
  have hmain := c4_hunger_clamp ⟨2, 2, {(0, 0)}⟩ 0 0 [Op.tick, Op.eat, Op.tick, Op.eat]
  exact ⟨hmain.1,
    hmain.2.1 { Herald.init ⟨2, 2, ∅⟩ 0 0 with hunger := 95 } rfl (by decide),
    hmain.2.2 (Herald.init ⟨2, 2, {(0, 0)}⟩ 0 0) (by decide)⟩

/-! ### `look_around` characterization (C1) -/

/-- The Manhattan length |dx| + |dy| of an offset. -/
def manAbs (d : Int × Int) : Int := |d.1| + |d.2|

/-- The offset `d` from the actor's position lands on an in-bounds cell
holding food — the condition under which `look_around`'s loop body
considers a cell. -/
def foodVisible (h : Herald) (d : Int × Int) : Bool :=
  h.world.is_valid_position (h.x + d.1) (h.y + d.2) &&
    h.world.has_food_at (h.x + d.1) (h.y + d.2)

lemma lookStep_none (h : Herald) (d : Int × Int) :
    lookStep h none d =
      if foodVisible h d then some ((h.x + d.1, h.y + d.2), manAbs d) else none := by
  unfold lookStep foodVisible manAbs
  cases hv : h.world.is_valid_position (h.x + d.1) (h.y + d.2) <;>
    cases hf : h.world.has_food_at (h.x + d.1) (h.y + d.2) <;>
    simp [hv, hf]

lemma lookStep_some (h : Herald) (v : (Int × Int) × Int) (d : Int × Int) :
    lookStep h (some v) d =
      if foodVisible h d then
        (if manAbs d < v.2 then some ((h.x + d.1, h.y + d.2), manAbs d) else some v)
      else some v := by
  unfold lookStep foodVisible manAbs
  cases hv : h.world.is_valid_position (h.x + d.1) (h.y + d.2) <;>
    cases hf : h.world.has_food_at (h.x + d.1) (h.y + d.2) <;>
    simp [hv, hf]

lemma foldl_lookStep_eq_none (h : Herald) : ∀ (l : List (Int × Int))
    (acc : Option ((Int × Int) × Int)),
    l.foldl (lookStep h) acc = none ↔
      acc = none ∧ ∀ d ∈ l, foodVisible h d = false := by
  intro l
  induction l with
  | nil => intro acc; simp
  | cons a l ih =>
    intro acc
    rw [List.foldl_cons, ih (lookStep h acc a)]
    constructor
    · rintro ⟨hacc, hl⟩
      cases acc with
      | none =>
        rw [lookStep_none] at hacc
        by_cases hfa : foodVisible h a = true
        · rw [if_pos hfa] at hacc
          exact absurd hacc (by simp)
        · refine ⟨rfl, ?_⟩
          intro d hd
          rcases List.mem_cons.mp hd with rfl | hd'
          · simpa using hfa
          · exact hl d hd'
      | some v =>
        rw [lookStep_some] at hacc
        by_cases hfa : foodVisible h a = true
        · rw [if_pos hfa] at hacc
          by_cases hda : manAbs a < v.2
          · rw [if_pos hda] at hacc
            exact absurd hacc (by simp)
          · rw [if_neg hda] at hacc
            exact absurd hacc (by simp)
        · rw [if_neg hfa] at hacc
          exact absurd hacc (by simp)
    · rintro ⟨rfl, hl⟩
      rw [lookStep_none, if_neg (by simp [hl a (List.mem_cons_self a l)])]
      exact ⟨rfl, fun d hd => hl d (List.mem_cons_of_mem a hd)⟩

/-- Characterization of the `look_around` fold: a `some (p, dist)` result
either survives from the accumulator (beating or tying everything visible in
the list) or originates at a unique split point `l = l1 ++ d :: l2` — the
first visible offset of minimal Manhattan length: strictly smaller than the
accumulator and everything visible before it, no larger than anything
visible after it. -/
lemma foldl_lookStep_eq_some (h : Herald) : ∀ (l : List (Int × Int))
    (acc : Option ((Int × Int) × Int)) (p : Int × Int) (dist : Int),
    l.foldl (lookStep h) acc = some (p, dist) →
    (acc = some (p, dist) ∧ ∀ d ∈ l, foodVisible h d = true → dist ≤ manAbs d) ∨
    (∃ l1 d l2, l = l1 ++ d :: l2 ∧ foodVisible h d = true ∧
      p = (h.x + d.1, h.y + d.2) ∧ dist = manAbs d ∧
      (∀ v : (Int × Int) × Int, acc = some v → dist < v.2) ∧
      (∀ d' ∈ l1, foodVisible h d' = true → dist < manAbs d') ∧
      (∀ d' ∈ l2, foodVisible h d' = true → dist ≤ manAbs d')) := by
  intro l
  induction l with
  | nil =>
    intro acc p dist hres
    exact Or.inl ⟨hres, by simp⟩
  | cons a l ih =>
    intro acc p dist hres
    rw [List.foldl_cons] at hres
    rcases ih (lookStep h acc a) p dist hres with ⟨hacc, hmin⟩ |
      ⟨l1, d, l2, hsplit, hfv, hp, hdist, haccv, hl1, hl2⟩
    · -- the result came through unchanged from `lookStep h acc a`
      cases acc with
      | none =>
        rw [lookStep_none] at hacc
        by_cases hfa : foodVisible h a = true
        · rw [if_pos hfa] at hacc
          simp only [Option.some.injEq, Prod.mk.injEq] at hacc
          exact Or.inr ⟨[], a, l, rfl, hfa, hacc.1.symm, hacc.2.symm, by simp, by simp, hmin⟩
        · rw [if_neg hfa] at hacc
          exact absurd hacc (by simp)
      | some v =>
        rw [lookStep_some] at hacc
        by_cases hfa : foodVisible h a = true
        · rw [if_pos hfa] at hacc
          by_cases hda : manAbs a < v.2
          · rw [if_pos hda] at hacc
            simp only [Option.some.injEq, Prod.mk.injEq] at hacc
            refine Or.inr ⟨[], a, l, rfl, hfa, hacc.1.symm, hacc.2.symm, ?_, by simp, hmin⟩
            intro v' hv'
            have hvv : v = v' := by injection hv'
            rw [hacc.2.symm, ← hvv]
            exact hda
          · rw [if_neg hda] at hacc
            refine Or.inl ⟨hacc, ?_⟩
            intro d' hd' hfv'
            rcases List.mem_cons.mp hd' with rfl | hd''
            · have hv : v = (p, dist) := by injection hacc
              rw [hv] at hda
              simpa using not_lt.mp hda
            · exact hmin d' hd'' hfv'
        · rw [if_neg hfa] at hacc
          refine Or.inl ⟨hacc, ?_⟩
          intro d' hd' hfv'
          rcases List.mem_cons.mp hd' with rfl | hd''
          · exact absurd hfv' (by simp [hfa])
          · exact hmin d' hd'' hfv'
    · -- the result originates inside `l`
      refine Or.inr ⟨a :: l1, d, l2, by rw [hsplit, List.cons_append], hfv, hp, hdist, ?_, ?_, hl2⟩
      · -- it must beat the original accumulator
        intro v hv
        subst hv
        rw [lookStep_some] at haccv
        by_cases hfa : foodVisible h a = true
        · rw [if_pos hfa] at haccv
          by_cases hda : manAbs a < v.2
          · rw [if_pos hda] at haccv
            have := haccv ((h.x + a.1, h.y + a.2), manAbs a) rfl
            omega
          · rw [if_neg hda] at haccv
            exact haccv v rfl
        · rw [if_neg hfa] at haccv
          exact haccv v rfl
      · -- it strictly beats everything visible before it, `a` included
        intro d' hd' hfv'
        rcases List.mem_cons.mp hd' with rfl | hd''
        · cases acc with
          | none =>
            rw [lookStep_none, if_pos hfv'] at haccv
            exact haccv _ rfl
          | some v =>
            rw [lookStep_some, if_pos hfv'] at haccv
            by_cases hda : manAbs d' < v.2
            · rw [if_pos hda] at haccv
              exact haccv _ rfl
            · rw [if_neg hda] at haccv
              have := haccv v rfl
              omega
        · exact hl1 d' hd'' hfv'

/-- The strict scan order of `look_around`: `dx` ascending, `dy` ascending
within equal `dx`. -/
def scanLt (d d' : Int × Int) : Prop :=
  d.1 < d'.1 ∨ (d.1 = d'.1 ∧ d.2 < d'.2)

lemma mem_pyRange {a b x : Int} : x ∈ pyRange a b ↔ a ≤ x ∧ x < b := by
  unfold pyRange
  rw [List.mem_map]
  constructor
  · rintro ⟨i, hi, rfl⟩
    rw [List.mem_range] at hi
    omega
  · rintro ⟨h1, h2⟩
    refine ⟨(x - a).toNat, ?_, ?_⟩
    · rw [List.mem_range]
      omega
    · omega

lemma pyRange_pairwise (a b : Int) : (pyRange a b).Pairwise (· < ·) := by
  unfold pyRange
  exact (List.pairwise_lt_range _).map _ (fun i j hij => by omega)

lemma mem_scanOffsets {r : Int} {d : Int × Int} :
    d ∈ scanOffsets r ↔ -r ≤ d.1 ∧ d.1 ≤ r ∧ -r ≤ d.2 ∧ d.2 ≤ r := by
  simp only [scanOffsets, List.mem_flatMap, List.mem_map, mem_pyRange]
  constructor
  · rintro ⟨dx, hdx, dy, hdy, rfl⟩
    simp only
    omega
  · rintro ⟨h1, h2, h3, h4⟩
    exact ⟨d.1, by omega, d.2, by omega, rfl⟩

lemma scanOffsets_pairwise (r : Int) : (scanOffsets r).Pairwise scanLt := by
  unfold scanOffsets
  rw [List.pairwise_flatMap]
  constructor
  · intro dx _
    rw [List.pairwise_map]
    exact (pyRange_pairwise _ _).imp (fun hlt => Or.inr ⟨rfl, hlt⟩)
  · apply (pyRange_pairwise (-r) (r + 1)).imp
    intro dx dx' hlt x hx y hy
    rcases List.mem_map.mp hx with ⟨_, _, rfl⟩
    rcases List.mem_map.mp hy with ⟨_, _, rfl⟩
    exact Or.inl hlt

/-- C1 is false as stated: from (0,0) with `vision_range = 1` on a 2×2 grid
whose only food is at (1,1), no food cell lies within Manhattan distance 1
(the five such cells are checked one by one), yet `look_around 1` returns
(1,1) — a cell at Manhattan distance 2 > 1 — because the loop scans the
square |dx| ≤ 1 ∧ |dy| ≤ 1, not the Manhattan ball. -/
theorem c1_counterexample :
    (Herald.init ⟨2, 2, {(1, 1)}⟩ 0 0).look_around 1 = some (1, 1) ∧
    ¬ (|(1 : Int) - 0| + |(1 : Int) - 0| ≤ 1) ∧
    (Herald.init ⟨2, 2, {(1, 1)}⟩ 0 0).world.has_food_at 0 0 = false ∧
    (Herald.init ⟨2, 2, {(1, 1)}⟩ 0 0).world.has_food_at 1 0 = false ∧
    (Herald.init ⟨2, 2, {(1, 1)}⟩ 0 0).world.has_food_at 0 1 = false ∧
    (Herald.init ⟨2, 2, {(1, 1)}⟩ 0 0).world.has_food_at (-1) 0 = false ∧
    (Herald.init ⟨2, 2, {(1, 1)}⟩ 0 0).world.has_food_at 0 (-1) = false := by
  exact ⟨by decide, by decide, by decide, by decide, by decide, by decide, by decide⟩

/-- C1 amended: `look_around` scans the square of offsets with
|dx| ≤ visionRange and |dy| ≤ visionRange (a Chebyshev ball, so returned
cells can be up to Manhattan distance 2·visionRange away).  It returns the
no-food result exactly when no in-bounds food cell lies in that square, and
otherwise returns an in-bounds food cell of that square with minimal
Manhattan distance, ties broken by the first minimal cell in the
deterministic scan order (`dx` ascending, `dy` ascending within each `dx`);
the call mutates no state (it is a pure function of the state here). -/
theorem c1_look_around_characterization (h : Herald) (r : Int) :
    (h.look_around r = none ↔
      ∀ d : Int × Int, -r ≤ d.1 → d.1 ≤ r → -r ≤ d.2 → d.2 ≤ r →
        foodVisible h d = false) ∧
    (∀ px py : Int, h.look_around r = some (px, py) →
      foodVisible h (px - h.x, py - h.y) = true ∧
      -r ≤ px - h.x ∧ px - h.x ≤ r ∧ -r ≤ py - h.y ∧ py - h.y ≤ r ∧
      (∀ d : Int × Int, -r ≤ d.1 → d.1 ≤ r → -r ≤ d.2 → d.2 ≤ r →
        foodVisible h d = true → manAbs (px - h.x, py - h.y) ≤ manAbs d) ∧
      (∀ d : Int × Int, -r ≤ d.1 → d.1 ≤ r → -r ≤ d.2 → d.2 ≤ r →
        foodVisible h d = true → scanLt d (px - h.x, py - h.y) →
        manAbs (px - h.x, py - h.y) < manAbs d)) := by
  constructor
  · unfold Herald.look_around
    rw [Option.map_eq_none', foldl_lookStep_eq_none]
    constructor
    · rintro ⟨-, hall⟩ d h1 h2 h3 h4
      exact hall d (mem_scanOffsets.mpr ⟨h1, h2, h3, h4⟩)
    · intro hall
      exact ⟨rfl, fun d hd => hall d (mem_scanOffsets.mp hd).1 (mem_scanOffsets.mp hd).2.1
        (mem_scanOffsets.mp hd).2.2.1 (mem_scanOffsets.mp hd).2.2.2⟩
  · intro px py hsome
    unfold Herald.look_around at hsome
    rw [Option.map_eq_some'] at hsome
    obtain ⟨pd, hfold, hfst⟩ := hsome
    rcases foldl_lookStep_eq_some h (scanOffsets r) none pd.1 pd.2
        (by rw [← hfold]) with ⟨hcontra, -⟩ | hchar
    · exact absurd hcontra (by simp)
    obtain ⟨l1, d, l2, hsplit, hfv, hp, hdist, -, hl1, hl2⟩ := hchar
    have hdmem : d ∈ scanOffsets r := by
      rw [hsplit]
      exact List.mem_append_right l1 (List.mem_cons_self d l2)
    obtain ⟨hb1, hb2, hb3, hb4⟩ := mem_scanOffsets.mp hdmem
    have hdx : d.1 = px - h.x ∧ d.2 = py - h.y := by
      rw [hfst] at hp
      have h1 : px = h.x + d.1 := congrArg Prod.fst hp
      have h2 : py = h.y + d.2 := congrArg Prod.snd hp
      omega
    have hdeq : (px - h.x, py - h.y) = d := by
      rw [← hdx.1, ← hdx.2]
    -- pairwise facts about the split
    have hpw := scanOffsets_pairwise r
    rw [hsplit, List.pairwise_append] at hpw
    obtain ⟨-, hpw2, hcross⟩ := hpw
    have hdl2 : ∀ y ∈ l2, scanLt d y := (List.pairwise_cons.mp hpw2).1
    have hmin : ∀ d' ∈ scanOffsets r, foodVisible h d' = true → pd.2 ≤ manAbs d' := by
      intro d' hd' hfv'
      rw [hsplit] at hd'
      rcases List.mem_append.mp hd' with hmem | hmem
      · exact le_of_lt (hl1 d' hmem hfv')
      · rcases List.mem_cons.mp hmem with rfl | hmem'
        · rw [hdist]
        · exact hl2 d' hmem' hfv'
    refine ⟨by rw [hdeq]; exact hfv, by omega, by omega, by omega, by omega, ?_, ?_⟩
    · intro d' h1 h2 h3 h4 hfv'
      have := hmin d' (mem_scanOffsets.mpr ⟨h1, h2, h3, h4⟩) hfv'
      rw [hdeq, ← hdist]
      exact this
    · intro d' h1 h2 h3 h4 hfv' hlt
      rw [hdeq] at hlt
      have hd'mem : d' ∈ scanOffsets r := mem_scanOffsets.mpr ⟨h1, h2, h3, h4⟩
      rw [hsplit] at hd'mem
      rcases List.mem_append.mp hd'mem with hmem | hmem
      · rw [hdeq, ← hdist]
        exact hl1 d' hmem hfv'
      · rcases List.mem_cons.mp hmem with rfl | hmem'
        · exact absurd hlt (by unfold scanLt; omega)
        · have := hdl2 d' hmem'
          unfold scanLt at hlt this
          omega

/-- Witness for C1 amended: from (0,0) with range 1 and food only at (1,1),
the characterization applies — the returned cell (1,1) is a visible food
cell of the scanned square, and it is Manhattan-minimal among the square's
food cells. -/
theorem c1_look_around_characterization_witness :
    (Herald.init ⟨2, 2, {(1, 1)}⟩ 0 0).look_around 1 = some (1, 1) ∧
    foodVisible (Herald.init ⟨2, 2, {(1, 1)}⟩ 0 0) (1 - 0, 1 - 0) = true ∧
    manAbs (1 - 0, 1 - 0) ≤ manAbs (1, 1) := by
  have happ := (c1_look_around_characterization (Herald.init ⟨2, 2, {(1, 1)}⟩ 0 0) 1).2
    1 1 (by decide)
  exact ⟨by decide, happ.1,
    happ.2.2.2.2.2.1 (1, 1) (by decide) (by decide) (by decide) (by decide) happ.1⟩

end HeraldSim
